import Mathlib

/-!
Shallow embedding of the arbiter validation library (byteweap/arbiter).

Go `error` values are modelled as `Option String`: `none` is a nil error
(validation passed), `some msg` a failure carrying its description.
`fmt.Errorf(format, args...)` is modelled as the already-formatted message
string, which is exact for the claims under study (they only distinguish the
empty format, which is a no-op guard, from a non-empty one, returned verbatim).

A `Rule[T]` interface value is modelled by its observable behaviour: a
function `T → Option String`.

The package-global `rule.NotNil` value is mutable in Go (its error field is
overwritten by `Errf`), so the orchestration layer threads its state
explicitly (`arbiter.GlobalState`).
-/

namespace rule

/-- `Rule[T]` from src/rule/rule.go: an interface value observable only
through `Validate : T → error`. -/
abbrev Rule (T : Type) := T → Option String

/-- `ErrCondition` from src/unnamed/part_012. -/
def ErrCondition : String := "condition validation failed"

/-- `ErrDependency` from src/unnamed/part_012. -/
def ErrDependency : String := "dependency validation failed"

/-- `ErrMutualExclude` from src/unnamed/part_012. -/
def ErrMutualExclude : String := "mutual exclude validation failed"

/-- `ErrNil` from src/rule/nil.go. -/
def ErrNil : String := "must be nil"

/-- `ErrNotNil` from src/rule/nil.go. -/
def ErrNotNil : String := "must not be nil"

/-- `ConditionRule[T]` from src/unnamed/part_012. -/
structure ConditionRule (T : Type) where
  e : String
  operator : String
  rules : List (Rule T)

/-- `And` from src/unnamed/part_012. -/
def And {T : Type} (rules : List (Rule T)) : ConditionRule T :=
  { e := ErrCondition, operator := "AND", rules := rules }

/-- `Or` from src/unnamed/part_012. -/
def Or {T : Type} (rules : List (Rule T)) : ConditionRule T :=
  { e := ErrCondition, operator := "OR", rules := rules }

/-- The `"AND"` arm of `ConditionRule.Validate`: iterate the sub-rules,
returning `r.e` at the first failing sub-rule, nil if all pass. -/
def validateAndLoop {T : Type} (e : String) (rules : List (Rule T)) (value : T) :
    Option String :=
  match rules with
  | [] => none
  | r :: rest =>
    match r value with
    | some _ => some e
    | none => validateAndLoop e rest value

/-- The `"OR"` arm of `ConditionRule.Validate`: iterate the sub-rules,
returning nil at the first passing sub-rule, `r.e` if all fail. -/
def validateOrLoop {T : Type} (e : String) (rules : List (Rule T)) (value : T) :
    Option String :=
  match rules with
  | [] => some e
  | r :: rest =>
    match r value with
    | none => none
    | some _ => validateOrLoop e rest value

/-- `ConditionRule.Validate` from src/unnamed/part_012: switch on the
operator string; unknown operators fall through to `return r.e`. -/
def ConditionRule.Validate {T : Type} (r : ConditionRule T) (value : T) :
    Option String :=
  if r.operator = "AND" then validateAndLoop r.e r.rules value
  else if r.operator = "OR" then validateOrLoop r.e r.rules value
  else some r.e

/-- `ConditionRule.Errf` from src/unnamed/part_012: a non-empty format
replaces the error, an empty one is a no-op; the (mutated) rule is returned. -/
def ConditionRule.Errf {T : Type} (r : ConditionRule T) (format : String) :
    ConditionRule T :=
  if format ≠ "" then { r with e := format } else r

/-- `DependencyRule[T, D]` from src/unnamed/part_012. The `validator` field
is a Go interface and may be nil, hence `Option`. -/
structure DependencyRule (T D : Type) where
  e : String
  field : String
  dependency : String
  validator : Option (Rule D)
  valueGetter : T → D

/-- `Dependency` from src/unnamed/part_012. -/
def Dependency {T D : Type} (field dependency : String) (validator : Option (Rule D))
    (valueGetter : T → D) : DependencyRule T D :=
  { e := ErrDependency, field := field, dependency := dependency,
    validator := validator, valueGetter := valueGetter }

/-- `DependencyRule.Validate` from src/unnamed/part_012: a nil validator
passes trivially; otherwise delegate to the validator on the extracted
dependency value. -/
def DependencyRule.Validate {T D : Type} (r : DependencyRule T D) (value : T) :
    Option String :=
  match r.validator with
  | none => none
  | some v => v (r.valueGetter value)

/-- `DependencyRule.Errf` from src/unnamed/part_012. -/
def DependencyRule.Errf {T D : Type} (r : DependencyRule T D) (format : String) :
    DependencyRule T D :=
  if format ≠ "" then { r with e := format } else r

/-- `MutualExcludeRule[T]` from src/unnamed/part_012. The `compare` field is
a Go function value and may be nil, hence `Option`. -/
structure MutualExcludeRule (T : Type) where
  e : String
  fields : List String
  values : List T
  compare : Option (T → T → Bool)

/-- `MutualExclude` from src/unnamed/part_012. -/
def MutualExclude {T : Type} (fields : List String) (values : List T)
    (compare : Option (T → T → Bool)) : MutualExcludeRule T :=
  { e := ErrMutualExclude, fields := fields, values := values, compare := compare }

/-- The scan loop of `MutualExcludeRule.Validate`: `valid` becomes true at
the first element of `values` matching `value` (the Go loop breaks there). -/
def anyMatch {T : Type} (cmp : T → T → Bool) (values : List T) (value : T) : Bool :=
  match values with
  | [] => false
  | v :: rest => if cmp v value then true else anyMatch cmp rest value

/-- `MutualExcludeRule.Validate` from src/unnamed/part_012: a nil comparator
passes trivially; otherwise fail with `r.e` unless some element of
`r.values` compares equal to `value`. -/
def MutualExcludeRule.Validate {T : Type} (r : MutualExcludeRule T) (value : T) :
    Option String :=
  match r.compare with
  | none => none
  | some cmp => if !(anyMatch cmp r.values value) then some r.e else none

/-- `MutualExcludeRule.Errf` from src/unnamed/part_012. -/
def MutualExcludeRule.Errf {T : Type} (r : MutualExcludeRule T) (format : String) :
    MutualExcludeRule T :=
  if format ≠ "" then { r with e := format } else r

/-- The reflect kinds `ValidateStruct` and `NilRule.Validate` distinguish,
restricted to the kinds the claims exercise. `Invalid` is the kind of
`reflect.ValueOf(nil)`; `Str` is Go `string`; `Other` stands for the
remaining non-pointer, non-nilable kinds. -/
inductive GoKind where
  | Ptr
  | Struct
  | Int
  | Str
  | Invalid
  | Other
deriving DecidableEq

/-- A Go `any` value as inspected by the code under study: its reflect kind,
whether it is nil (meaningful for pointers), and — for pointers — the kind
of the pointee (`reflect.Value.Elem().Kind()`, only consulted when the
pointer is non-nil). -/
structure GoVal where
  kind : GoKind
  isNil : Bool
  elemKind : GoKind
deriving DecidableEq

/-- The nilness computation of `NilRule.Validate` from src/rule/nil.go on
the modelled kinds: the type switch maps a nil interface to nil, scalars to
non-nil, typed pointers to their own nilness; struct values and the
remaining kinds hit the unsupported-type error (`none`). -/
def nilnessOf (v : GoVal) : Option Bool :=
  match v.kind with
  | GoKind.Invalid => some true
  | GoKind.Int => some false
  | GoKind.Str => some false
  | GoKind.Ptr => some v.isNil
  | GoKind.Struct => none
  | GoKind.Other => none

/-- `NilRule[T]` from src/rule/nil.go (type argument erased: the claims use
it at `any`, i.e. on `GoVal`). -/
structure NilRule where
  not : Bool
  e : String

/-- `NilRule.Validate` from src/rule/nil.go: compute nilness, fail with the
unsupported-type error if the kind is unhandled, else fail with `r.e` when
the nilness disagrees with the `not` flag. -/
def NilRule.Validate (r : NilRule) (value : GoVal) : Option String :=
  match nilnessOf value with
  | none => some "unsupported type"
  | some isNil =>
    if (r.not && isNil) || (!r.not && !isNil) then some r.e else none

/-- `NilRule.Errf` from src/rule/nil.go. -/
def NilRule.Errf (r : NilRule) (format : String) : NilRule :=
  if format ≠ "" then { r with e := format } else r

end rule

namespace arbiter

/-- `Validate` from src/arbiter.go: apply the rules in order, returning the
first failure, nil if all pass. -/
def Validate {T : Type} (value : T) (rules : List (rule.Rule T)) : Option String :=
  match rules with
  | [] => none
  | r :: rest =>
    match r value with
    | some e => some e
    | none => Validate value rest

/-- `ValidateWithErrs` loop from src/arbiter.go: every rule is applied and
failures are appended to the accumulator. -/
def ValidateWithErrsLoop {T : Type} (value : T) (rules : List (rule.Rule T))
    (errs : List String) : List String :=
  match rules with
  | [] => errs
  | r :: rest =>
    match r value with
    | some e => ValidateWithErrsLoop value rest (errs ++ [e])
    | none => ValidateWithErrsLoop value rest errs

/-- `ValidateWithErrs` from src/arbiter.go: starts from the empty slice. -/
def ValidateWithErrs {T : Type} (value : T) (rules : List (rule.Rule T)) :
    List String :=
  ValidateWithErrsLoop value rules []

/-- `IFieldRule` from src/unnamed/part_017: an interface value observable
only through the nullary `validate() error`. -/
abbrev IFieldRule := Unit → Option String

/-- `FieldRule[T]` from src/unnamed/part_017: a pointer to the bound slot
(modelled as an address into a heap `Nat → T`) plus the rule list. -/
structure FieldRule (T : Type) where
  field : Nat
  rules : List (rule.Rule T)

/-- `Field` from src/unnamed/part_017: stores the slot pointer and rules;
the slot is not read at construction time. -/
def Field {T : Type} (field : Nat) (rules : List (rule.Rule T)) : FieldRule T :=
  { field := field, rules := rules }

/-- The loop of `FieldRule.validate`: each iteration dereferences the slot
(`*f.field`) in the given heap and applies the next rule, returning the
first failure unchanged. -/
def fieldValidateLoop {T : Type} (heap : Nat → T) (fld : Nat)
    (rules : List (rule.Rule T)) : Option String :=
  match rules with
  | [] => none
  | r :: rest =>
    match r (heap fld) with
    | some e => some e
    | none => fieldValidateLoop heap fld rest

/-- `FieldRule.validate` from src/unnamed/part_017, relative to the heap
current at call time. -/
def FieldRule.validate {T : Type} (heap : Nat → T) (f : FieldRule T) : Option String :=
  fieldValidateLoop heap f.field f.rules

/-- The mutable state of the package-global `rule.NotNil` value: its error
field, initially `ErrNotNil`, overwritten in place by every
`rule.NotNil.Errf(...)` call with a non-empty format. -/
structure GlobalState where
  notNilE : String
deriving DecidableEq

/-- The process-start state of the global `rule.NotNil`. -/
def initState : GlobalState := { notNilE := rule.ErrNotNil }

/-- The effect of `rule.NotNil.Errf(format)` on the global state
(src/rule/nil.go `NilRule.Errf` applied to the shared `NotNil` value). -/
def notNilErrf (s : GlobalState) (format : String) : GlobalState :=
  if format ≠ "" then { notNilE := format } else s

/-- The field-binding loop of `ValidateStruct`: invoke each binding's
`validate()` in order, returning the first failure. -/
def fieldsLoop (fields : List IFieldRule) : Option String :=
  match fields with
  | [] => none
  | f :: rest =>
    match f () with
    | some e => some e
    | none => fieldsLoop rest

/-- `ValidateStruct` from src/arbiter.go. Shape check first: `value` must be
a pointer and, when non-nil, must point at a struct (the pointee kind is not
inspected for a nil pointer, because the Go `&&` short-circuits on
`!v.IsNil()`). Then `Validate(value, rule.NotNil.Errf(nilErr))`, which
mutates the global `NotNil` before the nil check runs; then the field
bindings in order. Returns the updated global state with the result. -/
def ValidateStruct (s : GlobalState) (value : rule.GoVal) (nilErr : String)
    (fields : List IFieldRule) : GlobalState × Option String :=
  if value.kind ≠ rule.GoKind.Ptr ∨
      (value.isNil = false ∧ value.elemKind ≠ rule.GoKind.Struct) then
    (s, some "value must be a pointer")
  else
    let s' := notNilErrf s nilErr
    match Validate value [rule.NilRule.Validate { not := true, e := s'.notNilE }] with
    | some e => (s', some e)
    | none => (s', fieldsLoop fields)

end arbiter

/-! ### Helper lemmas on the embedded loops -/

namespace arbiter

theorem validate_all_pass {T : Type} (value : T) (rs : List (rule.Rule T))
    (h : ∀ p ∈ rs, p value = none) : Validate value rs = none := by
  induction rs with
  | nil => rfl
  | cons r rest ih =>
    have hr : r value = none := h r (by simp)
    have ih' := ih (fun p hp => h p (by simp [hp]))
    simp [Validate, hr, ih']

theorem validate_append_fail {T : Type} (value : T) (pre post : List (rule.Rule T))
    (r : rule.Rule T) (e' : String) (hpre : ∀ p ∈ pre, p value = none)
    (hr : r value = some e') : Validate value (pre ++ r :: post) = some e' := by
  induction pre with
  | nil => simp [Validate, hr]
  | cons p rest ih =>
    have hp : p value = none := hpre p (by simp)
    have ih' := ih (fun q hq => hpre q (by simp [hq]))
    simp [Validate, hp, ih']

theorem fieldValidateLoop_eq_validate {T : Type} (heap : Nat → T) (fld : Nat)
    (rs : List (rule.Rule T)) : fieldValidateLoop heap fld rs = Validate (heap fld) rs := by
  induction rs with
  | nil => rfl
  | cons r rest ih =>
    simp only [fieldValidateLoop, Validate, ih]

theorem validateWithErrsLoop_eq {T : Type} (value : T) (rs : List (rule.Rule T))
    (errs : List String) :
    ValidateWithErrsLoop value rs errs = errs ++ rs.filterMap (fun r => r value) := by
  induction rs generalizing errs with
  | nil => simp [ValidateWithErrsLoop]
  | cons r rest ih =>
    cases hr : r value with
    | none => simp [ValidateWithErrsLoop, hr, ih]
    | some e => simp [ValidateWithErrsLoop, hr, ih]

end arbiter

namespace rule

theorem validateAndLoop_all_pass {T : Type} (e : String) (value : T)
    (rs : List (Rule T)) (h : ∀ p ∈ rs, p value = none) :
    validateAndLoop e rs value = none := by
  induction rs with
  | nil => rfl
  | cons r rest ih =>
    have hr : r value = none := h r (by simp)
    have ih' := ih (fun p hp => h p (by simp [hp]))
    simp [validateAndLoop, hr, ih']

theorem validateAndLoop_append_fail {T : Type} (e : String) (value : T)
    (pre post : List (Rule T)) (r : Rule T) (e' : String)
    (hpre : ∀ p ∈ pre, p value = none) (hr : r value = some e') :
    validateAndLoop e (pre ++ r :: post) value = some e := by
  induction pre with
  | nil => simp [validateAndLoop, hr]
  | cons p rest ih =>
    have hp : p value = none := hpre p (by simp)
    have ih' := ih (fun q hq => hpre q (by simp [hq]))
    simp [validateAndLoop, hp, ih']

theorem validateOrLoop_all_fail {T : Type} (e : String) (value : T)
    (rs : List (Rule T)) (h : ∀ p ∈ rs, p value ≠ none) :
    validateOrLoop e rs value = some e := by
  induction rs with
  | nil => rfl
  | cons r rest ih =>
    have hr : r value ≠ none := h r (by simp)
    have ih' := ih (fun p hp => h p (by simp [hp]))
    cases hcase : r value with
    | none => exact absurd hcase hr
    | some e' => simp [validateOrLoop, hcase, ih']

theorem validateOrLoop_append_pass {T : Type} (e : String) (value : T)
    (pre post : List (Rule T)) (r : Rule T)
    (hpre : ∀ p ∈ pre, p value ≠ none) (hr : r value = none) :
    validateOrLoop e (pre ++ r :: post) value = none := by
  induction pre with
  | nil => simp [validateOrLoop, hr]
  | cons p rest ih =>
    have hp : p value ≠ none := hpre p (by simp)
    have ih' := ih (fun q hq => hpre q (by simp [hq]))
    cases hcase : p value with
    | none => exact absurd hcase hp
    | some e' => simp [validateOrLoop, hcase, ih']

theorem validateAndLoop_none_or {T : Type} (e : String) (value : T)
    (rs : List (Rule T)) :
    validateAndLoop e rs value = none ∨ validateAndLoop e rs value = some e := by
  induction rs with
  | nil => exact Or.inl rfl
  | cons r rest ih =>
    cases hcase : r value with
    | none => simpa [validateAndLoop, hcase] using ih
    | some e' => simp [validateAndLoop, hcase]

theorem validateOrLoop_none_or {T : Type} (e : String) (value : T)
    (rs : List (Rule T)) :
    validateOrLoop e rs value = none ∨ validateOrLoop e rs value = some e := by
  induction rs with
  | nil => exact Or.inr rfl
  | cons r rest ih =>
    cases hcase : r value with
    | none => simp [validateOrLoop, hcase]
    | some e' => simpa [validateOrLoop, hcase] using ih

theorem conditionValidate_none_or_e {T : Type} (r : ConditionRule T) (value : T) :
    r.Validate value = none ∨ r.Validate value = some r.e := by
  by_cases hand : r.operator = "AND"
  · simpa [ConditionRule.Validate, hand] using validateAndLoop_none_or r.e value r.rules
  · by_cases hor : r.operator = "OR"
    · simpa [ConditionRule.Validate, hand, hor] using validateOrLoop_none_or r.e value r.rules
    · simp [ConditionRule.Validate, hand, hor]

theorem anyMatch_iff {T : Type} (cmp : T → T → Bool) (vs : List T) (x : T) :
    anyMatch cmp vs x = true ↔ ∃ v ∈ vs, cmp v x = true := by
  induction vs with
  | nil => simp [anyMatch]
  | cons v rest ih =>
    by_cases hv : cmp v x = true
    · simp [anyMatch, hv]
    · simp [anyMatch, hv, ih]

end rule

/-! ### Concrete rules used by the witnesses -/

/-- A rule that accepts every natural number. -/
def passRule : rule.Rule Nat := fun _ => none

/-- A rule that rejects every natural number with its own description. -/
def failRule : rule.Rule Nat := fun _ => some "boom"

/-- A typed nil pointer whose pointee type is a struct (a nil record
pointer such as `(*Person)(nil)`). -/
def nilStructPtr : rule.GoVal :=
  { kind := rule.GoKind.Ptr, isNil := true, elemKind := rule.GoKind.Struct }

/-! ### Claim theorems -/

/-- Claim C3: `And(children).Validate(value)` iterates the children in
order; at the first failing child it stops — the result is the same for
every suffix of later children — and returns the compound rule's own
description (the `Errf` override if set, otherwise the generic
`ErrCondition`, never the failing child's description `e'`); it passes when
all children pass, and `And` of zero children always passes. -/
theorem and_validate_spec {T : Type} (value : T) (pre post rs : List (rule.Rule T))
    (r : rule.Rule T) (e' msg : String)
    (hpre : ∀ p ∈ pre, p value = none) (hr : r value = some e') (hmsg : msg ≠ "") :
    (rule.And (pre ++ r :: post)).Validate value = some rule.ErrCondition
    ∧ ((rule.And (pre ++ r :: post)).Errf msg).Validate value = some msg
    ∧ ((∀ p ∈ rs, p value = none) → (rule.And rs).Validate value = none)
    ∧ (rule.And ([] : List (rule.Rule T))).Validate value = none := by
  refine ⟨?_, ?_, ?_, ?_⟩
  · simpa [rule.And, rule.ConditionRule.Validate] using
      rule.validateAndLoop_append_fail rule.ErrCondition value pre post r e' hpre hr
  · simpa [rule.And, rule.ConditionRule.Errf, rule.ConditionRule.Validate, hmsg] using
      rule.validateAndLoop_append_fail msg value pre post r e' hpre hr
  · intro hall
    simpa [rule.And, rule.ConditionRule.Validate] using
      rule.validateAndLoop_all_pass rule.ErrCondition value rs hall
  · simp [rule.And, rule.ConditionRule.Validate, rule.validateAndLoop]

/-- Witness for the claim C3 theorem at children `[pass, fail, pass]`. -/
theorem and_validate_spec_witness :
    (rule.And [passRule, failRule, passRule]).Validate 0 = some rule.ErrCondition
    ∧ ((rule.And [passRule, failRule, passRule]).Errf "custom").Validate 0 = some "custom"
    ∧ (rule.And [passRule, passRule]).Validate 0 = none
    ∧ (rule.And ([] : List (rule.Rule Nat))).Validate 0 = none := by
  have h := and_validate_spec 0 [passRule] [passRule] [passRule, passRule]
      failRule "boom" "custom" (by simp [passRule]) rfl (by decide)
  exact ⟨h.1, h.2.1, h.2.2.1 (by simp [passRule]), h.2.2.2⟩

/-- Claim C4: `Or(children).Validate(value)` iterates the children in order
and succeeds at the first passing child — the result is the same for every
suffix of later children; when every child fails it returns the compound
rule's own description (the `Errf` override if set, otherwise the generic
`ErrCondition`, never a child's); `Or` of zero children always fails. -/
theorem or_validate_spec {T : Type} (value : T) (pre post rs : List (rule.Rule T))
    (r : rule.Rule T) (msg : String)
    (hpre : ∀ p ∈ pre, p value ≠ none) (hr : r value = none)
    (hall : ∀ p ∈ rs, p value ≠ none) (hmsg : msg ≠ "") :
    (rule.Or (pre ++ r :: post)).Validate value = none
    ∧ (rule.Or rs).Validate value = some rule.ErrCondition
    ∧ ((rule.Or rs).Errf msg).Validate value = some msg
    ∧ (rule.Or ([] : List (rule.Rule T))).Validate value = some rule.ErrCondition := by
  refine ⟨?_, ?_, ?_, ?_⟩
  · simpa [rule.Or, rule.ConditionRule.Validate] using
      rule.validateOrLoop_append_pass rule.ErrCondition value pre post r hpre hr
  · simpa [rule.Or, rule.ConditionRule.Validate] using
      rule.validateOrLoop_all_fail rule.ErrCondition value rs hall
  · simpa [rule.Or, rule.ConditionRule.Errf, rule.ConditionRule.Validate, hmsg] using
      rule.validateOrLoop_all_fail msg value rs hall
  · simp [rule.Or, rule.ConditionRule.Validate, rule.validateOrLoop]

/-- Witness for the claim C4 theorem at children `[fail, pass, fail]`. -/
theorem or_validate_spec_witness :
    (rule.Or [failRule, passRule, failRule]).Validate 0 = none
    ∧ (rule.Or [failRule, failRule]).Validate 0 = some rule.ErrCondition
    ∧ ((rule.Or [failRule, failRule]).Errf "custom").Validate 0 = some "custom"
    ∧ (rule.Or ([] : List (rule.Rule Nat))).Validate 0 = some rule.ErrCondition := by
  have h := or_validate_spec 0 [failRule] [failRule] [failRule, failRule]
      passRule "custom" (by simp [failRule]) rfl (by simp [failRule]) (by decide)
  exact ⟨h.1, h.2.1, h.2.2.1, h.2.2.2⟩

/-- Claim C5: `ValidateWithErrs` evaluates every rule and returns exactly
the failure descriptions of the failing rules in list order (it equals the
`filterMap` of the rules' results), and the returned list is empty exactly
when every rule passes. -/
theorem validateWithErrs_spec {T : Type} (value : T) (rules : List (rule.Rule T)) :
    arbiter.ValidateWithErrs value rules = rules.filterMap (fun r => r value)
    ∧ (arbiter.ValidateWithErrs value rules = [] ↔ ∀ r ∈ rules, r value = none) := by
  have h := arbiter.validateWithErrsLoop_eq value rules []
  constructor
  · simpa [arbiter.ValidateWithErrs] using h
  · rw [arbiter.ValidateWithErrs, h]
    simp

/-- Claim C6: `Dependency` delegates: with a configured child rule the
result is exactly the child's result on the extracted value (the child's
description verbatim); with no child rule it passes for every extractor. -/
theorem dependency_validate_spec {T D : Type} (f d : String) (c : rule.Rule D)
    (g : T → D) (R : T) :
    (rule.Dependency f d (some c) g).Validate R = c (g R)
    ∧ (∀ g' : T → D, (rule.Dependency f d none g').Validate R = none) :=
  ⟨rfl, fun _ => rfl⟩

/-- Claim C7: a field binding reads its slot at validation time — validating
after the heap write at the bound address sees the written value, for any
heap at construction time — applies the rules in order, short-circuits at
the first failing rule returning that rule's description unchanged, and
passes when all rules pass. -/
theorem field_validate_spec {T : Type} (a : Nat) (h : Nat → T) (v : T)
    (pre post rs : List (rule.Rule T)) (r : rule.Rule T) (e' : String)
    (hpre : ∀ p ∈ pre, p v = none) (hr : r v = some e') :
    (arbiter.Field a rs).validate (Function.update h a v) = arbiter.Validate v rs
    ∧ (arbiter.Field a (pre ++ r :: post)).validate (Function.update h a v) = some e'
    ∧ ((∀ p ∈ rs, p v = none) →
        (arbiter.Field a rs).validate (Function.update h a v) = none) := by
  have hupd : Function.update h a v a = v := Function.update_same a v h
  have key : ∀ qs : List (rule.Rule T),
      (arbiter.Field a qs).validate (Function.update h a v) = arbiter.Validate v qs := by
    intro qs
    rw [arbiter.FieldRule.validate, arbiter.fieldValidateLoop_eq_validate]
    simp [arbiter.Field, hupd]
  refine ⟨key rs, ?_, ?_⟩
  · rw [key (pre ++ r :: post)]
    exact arbiter.validate_append_fail v pre post r e' hpre hr
  · intro hall
    rw [key rs]
    exact arbiter.validate_all_pass v rs hall

/-- Witness for the claim C7 theorem: slot 5 is written with 7 after the
binding is constructed, and validation sees the written value. -/
theorem field_validate_spec_witness :
    (arbiter.Field 5 [passRule]).validate (Function.update (fun _ => 0) 5 7)
      = arbiter.Validate 7 [passRule]
    ∧ (arbiter.Field 5 [passRule, failRule]).validate (Function.update (fun _ => 0) 5 7)
      = some "boom"
    ∧ (arbiter.Field 5 [passRule]).validate (Function.update (fun _ => 0) 5 7) = none := by
  have h := field_validate_spec 5 (fun _ => 0) 7 [passRule] [] [passRule]
      failRule "boom" (by simp [passRule]) rfl
  exact ⟨h.1, h.2.1, h.2.2 (by simp [passRule])⟩

/-- Claim C8: `Errf` with the empty format leaves the rule unchanged — on
every rule kind of the source (condition, dependency, mutual-exclude,
nil) — while a non-empty format replaces only the description, the last
call winning; afterwards every failure of the rule returns the custom
message verbatim. -/
theorem errf_spec {T : Type} (r : rule.ConditionRule T) (rd : rule.DependencyRule T T)
    (rm : rule.MutualExcludeRule T) (rn : rule.NilRule) (a b : String) (hb : b ≠ "") :
    r.Errf "" = r
    ∧ rd.Errf "" = rd
    ∧ rm.Errf "" = rm
    ∧ rn.Errf "" = rn
    ∧ ((r.Errf a).Errf b).e = b
    ∧ (r.Errf b).e = b
    ∧ (r.Errf b).operator = r.operator
    ∧ (r.Errf b).rules = r.rules
    ∧ (∀ v : T, (r.Errf b).Validate v = none ∨ (r.Errf b).Validate v = some b) := by
  have he : ∀ s : rule.ConditionRule T, (s.Errf b).e = b := by
    intro s
    simp [rule.ConditionRule.Errf, hb]
  refine ⟨?_, ?_, ?_, ?_, he (r.Errf a), he r, ?_, ?_, ?_⟩
  · simp [rule.ConditionRule.Errf]
  · simp [rule.DependencyRule.Errf]
  · simp [rule.MutualExcludeRule.Errf]
  · simp [rule.NilRule.Errf]
  · simp [rule.ConditionRule.Errf, hb]
  · simp [rule.ConditionRule.Errf, hb]
  · intro v
    have h := rule.conditionValidate_none_or_e (r.Errf b) v
    rwa [he r] at h

/-- Witness for the claim C8 theorem: overriding twice yields the second
message, and the failing rule reports it. -/
theorem errf_spec_witness :
    (rule.And [failRule]).Errf "" = rule.And [failRule]
    ∧ (((rule.And [failRule]).Errf "a").Errf "b").e = "b"
    ∧ (((rule.And [failRule]).Errf "b").Validate 0 = none
        ∨ ((rule.And [failRule]).Errf "b").Validate 0 = some "b") := by
  have h := errf_spec (rule.And [failRule]) (rule.Dependency "f" "d" none id)
      (rule.MutualExclude [] [] none) { not := true, e := rule.ErrNotNil } "a" "b" (by decide)
  exact ⟨h.1, h.2.2.2.2.1, h.2.2.2.2.2.2.2.2 0⟩

/-- Claim C9: `MutualExclude(fields, values, eq).Validate(x)` passes exactly
when some element of `values` compares equal to `x` under `eq`, and
otherwise fails with the rule's own description `ErrMutualExclude`. -/
theorem mutualExclude_validate_spec {T : Type} (fs : List String) (vs : List T)
    (cmp : T → T → Bool) (x : T) :
    ((rule.MutualExclude fs vs (some cmp)).Validate x = none ↔ ∃ v ∈ vs, cmp v x = true)
    ∧ ((¬ ∃ v ∈ vs, cmp v x = true) →
        (rule.MutualExclude fs vs (some cmp)).Validate x = some rule.ErrMutualExclude) := by
  constructor
  · rw [← rule.anyMatch_iff cmp vs x]
    cases hm : rule.anyMatch cmp vs x with
    | true => simp [rule.MutualExclude, rule.MutualExcludeRule.Validate, hm]
    | false => simp [rule.MutualExclude, rule.MutualExcludeRule.Validate, hm]
  · intro hno
    have hm : rule.anyMatch cmp vs x = false := by
      rw [← Bool.not_eq_true]
      rw [rule.anyMatch_iff cmp vs x]
      exact hno
    simp [rule.MutualExclude, rule.MutualExcludeRule.Validate, hm]

/-- Witness for the claim C9 theorem: with values `{"A","B"}` and string
equality, `"A"` passes and `"C"` fails. -/
theorem mutualExclude_validate_spec_witness :
    (rule.MutualExclude [] ["A", "B"] (some (fun u w => u == w))).Validate "A" = none
    ∧ (rule.MutualExclude [] ["A", "B"] (some (fun u w => u == w))).Validate "C"
      = some rule.ErrMutualExclude := by
  constructor
  · exact (mutualExclude_validate_spec [] ["A", "B"] (fun u w => u == w) "A").1.mpr
      ⟨"A", by simp, by decide⟩
  · exact (mutualExclude_validate_spec [] ["A", "B"] (fun u w => u == w) "C").2 (by decide)

/-- Claim C1 counterexample: with the caller-supplied nilMessage `""`, a nil
record pointer makes `ValidateStruct` return the default description
`"must not be nil"` (the `Errf` empty-format no-op guard), which is not the
caller-supplied message. -/
theorem validateStruct_nil_guard_counterexample :
    (arbiter.ValidateStruct arbiter.initState nilStructPtr "" []).2
      = some "must not be nil"
    ∧ some "must not be nil" ≠ some ("" : String) := by
  constructor
  · rfl
  · decide

/-- Claim C1 (amended): for a nil record pointer, any state of the shared
`NotNil` rule, any NON-empty nilMessage and any field bindings, the field
bindings never affect the call (its whole result equals the call with no
bindings) and the returned failure is exactly the caller-supplied
nilMessage. -/
theorem validateStruct_nil_guard (s : arbiter.GlobalState) (ek : rule.GoKind)
    (msg : String) (fields : List arbiter.IFieldRule) (hmsg : msg ≠ "") :
    (arbiter.ValidateStruct s { kind := rule.GoKind.Ptr, isNil := true, elemKind := ek }
        msg fields).2 = some msg
    ∧ arbiter.ValidateStruct s { kind := rule.GoKind.Ptr, isNil := true, elemKind := ek }
        msg fields
      = arbiter.ValidateStruct s { kind := rule.GoKind.Ptr, isNil := true, elemKind := ek }
        msg [] := by
  constructor
  · simp [arbiter.ValidateStruct, arbiter.notNilErrf, arbiter.Validate,
      rule.NilRule.Validate, rule.nilnessOf, hmsg]
  · simp [arbiter.ValidateStruct, arbiter.notNilErrf, arbiter.Validate,
      rule.NilRule.Validate, rule.nilnessOf, hmsg]

/-- Witness for the claim C1 amended theorem: a nil record pointer with a
non-empty message and a binding that would fail if it were invoked. -/
theorem validateStruct_nil_guard_witness :
    (arbiter.ValidateStruct arbiter.initState
        { kind := rule.GoKind.Ptr, isNil := true, elemKind := rule.GoKind.Struct }
        "Person cannot be nil" [fun _ => some "field failure"]).2
      = some "Person cannot be nil"
    ∧ arbiter.ValidateStruct arbiter.initState
        { kind := rule.GoKind.Ptr, isNil := true, elemKind := rule.GoKind.Struct }
        "Person cannot be nil" [fun _ => some "field failure"]
      = arbiter.ValidateStruct arbiter.initState
        { kind := rule.GoKind.Ptr, isNil := true, elemKind := rule.GoKind.Struct }
        "Person cannot be nil" [] :=
  validateStruct_nil_guard arbiter.initState rule.GoKind.Struct
    "Person cannot be nil" [fun _ => some "field failure"] (by decide)

/-- Claim C2 (code bug): `ValidateStruct` mutates the package-global
`rule.NotNil` value through `Errf`, so a call with identical arguments
(a nil record pointer and the empty nilMessage) returns different results
depending on an earlier call in the process: `"must not be nil"` from the
process-start state, but `"A"` after a call that supplied nilMessage
`"A"`. -/
theorem validateStruct_not_pure :
    (arbiter.ValidateStruct arbiter.initState nilStructPtr "" []).2
      = some "must not be nil"
    ∧ (arbiter.ValidateStruct
        (arbiter.ValidateStruct arbiter.initState nilStructPtr "A" []).1
        nilStructPtr "" []).2 = some "A"
    ∧ ("must not be nil" : String) ≠ "A" := by
  refine ⟨rfl, rfl, by decide⟩

/-- Claim C10: a nil pointer of any pointee kind passes the shape check and
yields the nil-record failure (the current, possibly-overridden `NotNil`
description) rather than the `"value must be a pointer"` shape error, while
a non-nil pointer to a non-struct pointee is rejected by the shape check. -/
theorem validateStruct_nilptr_shape (s : arbiter.GlobalState) (ek : rule.GoKind)
    (msg : String) (fields : List arbiter.IFieldRule) (hek : ek ≠ rule.GoKind.Struct) :
    (arbiter.ValidateStruct s { kind := rule.GoKind.Ptr, isNil := true, elemKind := ek }
        msg fields).2 = some (arbiter.notNilErrf s msg).notNilE
    ∧ (arbiter.ValidateStruct s { kind := rule.GoKind.Ptr, isNil := false, elemKind := ek }
        msg fields).2 = some "value must be a pointer" := by
  constructor
  · simp [arbiter.ValidateStruct, arbiter.Validate, rule.NilRule.Validate, rule.nilnessOf]
  · simp [arbiter.ValidateStruct, hek]

/-- Witness for the claim C10 theorem at a `*int` pointer: nil gets the
nil-record failure, non-nil gets the shape error. -/
theorem validateStruct_nilptr_shape_witness :
    (arbiter.ValidateStruct arbiter.initState
        { kind := rule.GoKind.Ptr, isNil := true, elemKind := rule.GoKind.Int }
        "nope" []).2 = some (arbiter.notNilErrf arbiter.initState "nope").notNilE
    ∧ (arbiter.ValidateStruct arbiter.initState
        { kind := rule.GoKind.Ptr, isNil := false, elemKind := rule.GoKind.Int }
        "nope" []).2 = some "value must be a pointer" :=
  validateStruct_nilptr_shape arbiter.initState rule.GoKind.Int "nope" [] (by decide)
